import Mathlib

/-!
Verification of the environment-aware data-refresh and caching pipeline of the
`overvability` backend (files `backend/environment_config.py`, `backend/app.py`,
`backend/database.py`, `backend/prometheus_service.py`).

The Python source is shallowly embedded: dictionaries with a fixed key set
become structures, insertion-ordered dictionaries become lists upserted by key,
the per-environment TinyDB databases become a total map from environment name
to a pair of tables, the layout files become a map from path to optional
document, and the external collaborators (Azure inventory, Prometheus) are
abstracted as explicit inputs (a list of raw inventory entries, an oracle from
metric series to optional values).
-/

set_option linter.unusedVariables false

namespace Overvability

/-! ### Character-level string helpers

Python's `in` (substring containment), `str.split("/")` and `str.strip()` are
embedded as structurally recursive functions on `List Char` so that they are
evaluable by the kernel. -/

/-- Bool test that `pre` is a leading segment of `l` (helper for substring
containment, mirroring Python's `in` operator on strings). -/
def leadsChars : List Char → List Char → Bool
  | [], _ => true
  | _ :: _, [] => false
  | a :: as, b :: bs => a == b && leadsChars as bs

/-- Bool substring containment: Python's `needle in hay` for strings. -/
def containsChars : List Char → List Char → Bool
  | [], needle => needle.isEmpty
  | h :: t, needle => leadsChars needle (h :: t) || containsChars t needle

/-- Substring containment on `String`, Python's `pattern in rg_upper`. -/
def strContains (hay needle : String) : Bool :=
  containsChars hay.data needle.data

/-- ASCII uppercasing, Python's `str.upper()`. -/
def toUpperStr (s : String) : String :=
  String.mk (s.data.map Char.toUpper)

/-- Python's `str.split("/")`: split on every occurrence of the separator,
keeping empty segments. -/
def splitSlash : List Char → List (List Char)
  | [] => [[]]
  | c :: cs =>
    match splitSlash cs with
    | [] => [[]]
    | p :: ps => if c == '/' then [] :: p :: ps else (c :: p) :: ps

/-- Python's `str.strip()`: drop whitespace from both ends. -/
def trimChars (cs : List Char) : List Char :=
  ((cs.dropWhile Char.isWhitespace).reverse.dropWhile Char.isWhitespace).reverse

/-! ### `environment_config.py` -/

/-- `VALID_ENVIRONMENTS` from `environment_config.py`. -/
def VALID_ENVIRONMENTS : List String := ["dev", "fra", "release"]

/-- `DEFAULT_ENVIRONMENT` from `environment_config.py`. -/
def DEFAULT_ENVIRONMENT : String := "dev"

/-- `ENVIRONMENT_RESOURCE_GROUP_PATTERNS` from `environment_config.py`; the
Python dict iterates in insertion order, so it is embedded as an ordered
association list. -/
def ENVIRONMENT_RESOURCE_GROUP_PATTERNS : List (String × List String) :=
  [("dev", ["DEV", "DEVELOPMENT", "NINEBOT-DEV", "NINEBOT-WILLAND-TESTENV"]),
   ("fra", ["FRA", "WILLAND", "NINEBOT-WILLAND"]),
   ("release", ["RELEASE", "PROD", "PRODUCTION", "NINEBOT-RELEASE"])]

/-- The nested `for env, patterns ... for pattern ... return env` loop of
`get_environment_for_resource_group`: first table entry with any pattern
contained in the (already uppercased) label. -/
def lookupEnvByPatterns : List (String × List String) → String → Option String
  | [], _ => none
  | (env, patterns) :: rest, rg =>
    if patterns.any (fun pattern => strContains rg pattern) then some env
    else lookupEnvByPatterns rest rg

/-- `get_environment_for_resource_group` from `environment_config.py`. -/
def get_environment_for_resource_group (resource_group : String) : String :=
  (lookupEnvByPatterns ENVIRONMENT_RESOURCE_GROUP_PATTERNS
      (toUpperStr resource_group)).getD DEFAULT_ENVIRONMENT

/-- One inventory unit (the `vm_info` dict built in `fetch_all_vm_data`). -/
structure VmInfo where
  name : String
  ip : String
  coreCount : Nat
  memory : String
  os : String
  status : String
  subscriptionId : String
  resourceGroup : String
deriving DecidableEq, Repr

/-- One logical service (the per-name dict built in `fetch_all_vm_data`). -/
structure Service where
  service : String
  businessOwner : String
  resourceGroup : String
  location : String
  vms : List VmInfo
deriving DecidableEq, Repr

/-- `filter_services_by_environment` from `environment_config.py`. -/
def filter_services_by_environment (services : List Service) (env : String) : List Service :=
  let env := if VALID_ENVIRONMENTS.contains env then env else DEFAULT_ENVIRONMENT
  services.foldl
    (fun filtered service =>
      match service.vms.filter
          (fun vm => get_environment_for_resource_group vm.resourceGroup == env) with
      | [] => filtered
      | v :: vs =>
        filtered ++ [{ service with vms := v :: vs, resourceGroup := v.resourceGroup }])
    []

/-- `is_valid_environment` from `environment_config.py`. -/
def is_valid_environment (env : String) : Bool :=
  VALID_ENVIRONMENTS.contains env

/-- `validate_env` from `app.py`. -/
def validate_env (env : String) : String :=
  if is_valid_environment env then env else DEFAULT_ENVIRONMENT

/-! ### Lemmas about the classifier -/

theorem lookupEnvByPatterns_mem_of_eq_some (tbl : List (String × List String))
    (rg env : String) (h : lookupEnvByPatterns tbl rg = some env) :
    env ∈ tbl.map Prod.fst := by
  induction tbl with
  | nil => simp [lookupEnvByPatterns] at h
  | cons hd tl ih =>
    obtain ⟨e, patterns⟩ := hd
    by_cases hm : patterns.any (fun pattern => strContains rg pattern) = true
    · simp only [lookupEnvByPatterns, hm, if_true, Option.some.injEq] at h
      simp [h]
    · simp only [lookupEnvByPatterns, hm, if_false, Bool.false_eq_true] at h
      simp [ih h]

theorem lookupEnvByPatterns_eq_find (tbl : List (String × List String)) (rg : String) :
    lookupEnvByPatterns tbl rg =
      (tbl.find? (fun ep => ep.2.any (fun pattern => strContains rg pattern))).map Prod.fst := by
  induction tbl with
  | nil => simp [lookupEnvByPatterns]
  | cons hd tl ih =>
    obtain ⟨e, patterns⟩ := hd
    by_cases hm : patterns.any (fun pattern => strContains rg pattern) = true
    · simp [lookupEnvByPatterns, List.find?_cons, hm]
    · simp only [Bool.not_eq_true] at hm
      simp [lookupEnvByPatterns, List.find?_cons, hm, ih]

/-- Claim C1: the environment classifier is total and deterministic: every
label classifies to a member of the closed set `{dev, fra, release}`; the
result is that of the first environment in table order having any pattern
contained (case-insensitively) in the label, the configured default `dev`
being returned when no pattern matches; a label matching patterns of two
different environments (here `PROD-DEV-01`, matching a `dev` pattern and a
`release` pattern) resolves to the earlier-declared environment. -/
theorem c1_classifier_total_first_match :
    (∀ rg, get_environment_for_resource_group rg ∈ VALID_ENVIRONMENTS)
    ∧ (∀ rg, get_environment_for_resource_group rg =
        ((ENVIRONMENT_RESOURCE_GROUP_PATTERNS.find?
            (fun ep => ep.2.any (fun pattern => strContains (toUpperStr rg) pattern))).map
          Prod.fst).getD DEFAULT_ENVIRONMENT)
    ∧ strContains (toUpperStr "Prod-Dev-01") "DEV" = true
    ∧ strContains (toUpperStr "Prod-Dev-01") "PROD" = true
    ∧ get_environment_for_resource_group "Prod-Dev-01" = "dev" := by
  refine ⟨?_, ?_, by decide, by decide, by decide⟩
  · intro rg
    unfold get_environment_for_resource_group
    cases h : lookupEnvByPatterns ENVIRONMENT_RESOURCE_GROUP_PATTERNS (toUpperStr rg) with
    | none => simp [DEFAULT_ENVIRONMENT, VALID_ENVIRONMENTS]
    | some env =>
      have := lookupEnvByPatterns_mem_of_eq_some _ _ _ h
      simpa [ENVIRONMENT_RESOURCE_GROUP_PATTERNS, VALID_ENVIRONMENTS] using this
  · intro rg
    unfold get_environment_for_resource_group
    rw [lookupEnvByPatterns_eq_find]

/-! ### Lemmas about the environment filter -/

/-- The per-service body of `filter_services_by_environment` expressed as a
partial map: `none` when no member of the service classifies to `env`, else
the service restricted to its classifying members, its resource group
overwritten with the first retained member's. -/
def filterServiceForEnv (env : String) (s : Service) : Option Service :=
  match s.vms.filter
      (fun vm => get_environment_for_resource_group vm.resourceGroup == env) with
  | [] => none
  | v :: vs => some { s with vms := v :: vs, resourceGroup := v.resourceGroup }

theorem foldl_append_eq_filterMap {α β : Type} (g : α → Option β) (l : List α) :
    ∀ acc : List β,
      l.foldl (fun a x => (g x).elim a (fun y => a ++ [y])) acc
        = acc ++ l.filterMap g := by
  induction l with
  | nil => intro acc; simp
  | cons x xs ih =>
    intro acc
    cases hx : g x <;> simp [hx, ih, List.filterMap_cons]

/-- Claim C2: for every snapshot and environment in the closed set, the filter
retains in each Service exactly the Members whose resource group classifies to
that environment, drops Services retaining none, and overwrites a retained
Service's resource group with that of its first retained Member. -/
theorem c2_filter_exact (services : List Service) (env : String)
    (h : env ∈ VALID_ENVIRONMENTS) :
    filter_services_by_environment services env =
      services.filterMap (filterServiceForEnv env)
    ∧ ∀ s ∈ filter_services_by_environment services env,
        s.vms ≠ []
        ∧ (∀ vm ∈ s.vms, get_environment_for_resource_group vm.resourceGroup = env)
        ∧ s.resourceGroup = (s.vms.head?.elim "" (fun v => v.resourceGroup)) := by
  have hc : VALID_ENVIRONMENTS.contains env = true := by
    simpa [List.elem_iff] using h
  have hmain : filter_services_by_environment services env =
      services.filterMap (filterServiceForEnv env) := by
    have hstep : (fun (filtered : List Service) (service : Service) =>
        match service.vms.filter
            (fun vm => get_environment_for_resource_group vm.resourceGroup == env) with
        | [] => filtered
        | v :: vs =>
          filtered ++ [{ service with vms := v :: vs, resourceGroup := v.resourceGroup }])
      = (fun (a : List Service) (s : Service) =>
          (filterServiceForEnv env s).elim a (fun y => a ++ [y])) := by
      funext a s
      unfold filterServiceForEnv
      cases hf : s.vms.filter
          (fun vm => get_environment_for_resource_group vm.resourceGroup == env) <;>
        simp [hf]
    simp only [filter_services_by_environment, hc, if_true]
    rw [hstep]
    simpa using foldl_append_eq_filterMap (filterServiceForEnv env) services []
  refine ⟨hmain, ?_⟩
  intro s hs
  rw [hmain] at hs
  rw [List.mem_filterMap] at hs
  obtain ⟨s0, hs0, hg⟩ := hs
  unfold filterServiceForEnv at hg
  cases hf : s0.vms.filter
      (fun vm => get_environment_for_resource_group vm.resourceGroup == env) with
  | nil => rw [hf] at hg; simp at hg
  | cons v vs =>
    rw [hf] at hg
    simp only [Option.some.injEq] at hg
    subst hg
    refine ⟨by simp, ?_, by simp⟩
    intro vm hvm
    have hvm2 : vm ∈ s0.vms.filter
        (fun vm => get_environment_for_resource_group vm.resourceGroup == env) := by
      rw [hf]; simpa using hvm
    have := (List.mem_filter.mp hvm2).2
    exact eq_of_beq this

/-- A dev-classified member for concrete examples. -/
def demoVmDev : VmInfo :=
  { name := "vm1", ip := "10.0.0.5", coreCount := 4, memory := "16GB", os := "ubuntu",
    status := "running", subscriptionId := "sub1", resourceGroup := "NINEBOT-DEV-01" }

/-- A fra-classified member for concrete examples. -/
def demoVmFra : VmInfo :=
  { name := "vm2", ip := "10.0.0.6", coreCount := 8, memory := "32GB", os := "ubuntu",
    status := "running", subscriptionId := "sub1", resourceGroup := "NINEBOT-WILLAND-01" }

/-- A service with members in two different environments. -/
def demoService : Service :=
  { service := "gateway", businessOwner := "teamA", resourceGroup := "NINEBOT-DEV-01",
    location := "westeurope", vms := [demoVmDev, demoVmFra] }

theorem c2_filter_exact_witness :
    "fra" ∈ VALID_ENVIRONMENTS ∧
    filter_services_by_environment [demoService] "fra" =
      [demoService].filterMap (filterServiceForEnv "fra") :=
  ⟨by decide, (c2_filter_exact [demoService] "fra" (by decide)).1⟩

/-! ### `fetch_all_vm_data` service merging (`app.py`, lines 127-151)

The Azure enumeration itself is an external collaborator; what reaches the
merging loop is, per visible VM, the `service` tag, the `proj` tag, the
resource group, the location and the built `vm_info` dict. One such tuple is a
`RawVmEntry`, and the insertion-ordered `services` dict is a list upserted by
service name. -/

/-- The data of one visible VM as consumed by the merging loop of
`fetch_all_vm_data`. -/
structure RawVmEntry where
  serviceTag : String
  proj : String
  resourceGroup : String
  location : String
  vm : VmInfo
deriving DecidableEq, Repr

/-- `[s.strip() for s in service_name.split("/") if s.strip()]`. -/
def splitServiceNames (label : String) : List String :=
  ((splitSlash label.data).map (fun cs => String.mk (trimChars cs))).filter
    (fun s => !(s == ""))

/-- The per-name body of the merging loop: create the Service on first sight
(with the entry's metadata as template and an empty member list that
immediately receives the member), else append a copy of the member. -/
def upsertServiceVm (e : RawVmEntry) (acc : List Service) (svcName : String) : List Service :=
  if acc.any (fun s => s.service == svcName) then
    acc.map (fun s => if s.service == svcName then { s with vms := s.vms ++ [e.vm] } else s)
  else
    acc ++ [{ service := svcName, businessOwner := e.proj, resourceGroup := e.resourceGroup,
              location := e.location, vms := [e.vm] }]

/-- Processing of one raw entry: split the service tag and upsert each name. -/
def processVmEntry (acc : List Service) (e : RawVmEntry) : List Service :=
  (splitServiceNames e.serviceTag).foldl (upsertServiceVm e) acc

/-- The merging loop of `fetch_all_vm_data`: the value of
`list(services.values())` after all raw entries are processed in fetch order. -/
def mergeVmEntries (entries : List RawVmEntry) : List Service :=
  entries.foldl processVmEntry []

/-! ### Lemmas about the merger -/

theorem splitSlash_of_not_mem (l : List Char) (h : '/' ∉ l) : splitSlash l = [l] := by
  induction l with
  | nil => rfl
  | cons c cs ih =>
    simp only [List.mem_cons, not_or] at h
    have hc : (c == '/') = false := beq_eq_false_iff_ne.mpr (Ne.symm h.1)
    simp [splitSlash, ih h.2, hc]

theorem splitServiceNames_no_sep (label : String) (h1 : '/' ∉ label.data)
    (h2 : trimChars label.data ≠ []) :
    splitServiceNames label = [String.mk (trimChars label.data)] := by
  have hne : (String.mk (trimChars label.data) == "") = false := by
    apply beq_eq_false_iff_ne.mpr
    intro hcontra
    exact h2 (by simpa [String.ext_iff] using hcontra)
  simp [splitServiceNames, splitSlash_of_not_mem _ h1, List.filter, hne]

/-- An entry whose label trims to `redis` with no separator. -/
def demoPlainEntry : RawVmEntry :=
  { serviceTag := "  redis  ", proj := "teamB", resourceGroup := "NINEBOT-DEV-02",
    location := "westeurope", vm := demoVmDev }

/-- An entry carrying the composite label `nacos/gateway`. -/
def demoSplitEntry : RawVmEntry :=
  { serviceTag := "nacos/gateway", proj := "teamA", resourceGroup := "NINEBOT-DEV-01",
    location := "westeurope", vm := demoVmDev }

/-- Claim C3: the merger splits a raw entry's label on `/` into trimmed
non-empty names and upserts one Service per name: the concrete label
`nacos/gateway` yields the Services `nacos` and `gateway`, each holding its own
copy of the member with identical fields, while a label without separator
(trimming to a non-empty name) yields exactly one Service. -/
theorem c3_merger_split :
    (∀ e : RawVmEntry, '/' ∉ e.serviceTag.data → trimChars e.serviceTag.data ≠ [] →
        mergeVmEntries [e] =
          [{ service := String.mk (trimChars e.serviceTag.data), businessOwner := e.proj,
             resourceGroup := e.resourceGroup, location := e.location, vms := [e.vm] }])
    ∧ mergeVmEntries [demoSplitEntry] =
        [{ service := "nacos", businessOwner := "teamA", resourceGroup := "NINEBOT-DEV-01",
           location := "westeurope", vms := [demoVmDev] },
         { service := "gateway", businessOwner := "teamA", resourceGroup := "NINEBOT-DEV-01",
           location := "westeurope", vms := [demoVmDev] }] := by
  constructor
  · intro e h1 h2
    simp [mergeVmEntries, processVmEntry, splitServiceNames_no_sep _ h1 h2, upsertServiceVm]
  · decide

theorem c3_merger_split_witness :
    '/' ∉ demoPlainEntry.serviceTag.data
    ∧ trimChars demoPlainEntry.serviceTag.data ≠ []
    ∧ mergeVmEntries [demoPlainEntry] =
        [{ service := String.mk (trimChars demoPlainEntry.serviceTag.data),
           businessOwner := demoPlainEntry.proj,
           resourceGroup := demoPlainEntry.resourceGroup,
           location := demoPlainEntry.location, vms := [demoPlainEntry.vm] }] :=
  ⟨by decide, by decide, c3_merger_split.1 demoPlainEntry (by decide) (by decide)⟩

theorem upsertServiceVm_names_nodup (e : RawVmEntry) (n : String) (acc : List Service)
    (h : (acc.map (fun s => s.service)).Nodup) :
    ((upsertServiceVm e acc n).map (fun s => s.service)).Nodup := by
  unfold upsertServiceVm
  by_cases ha : acc.any (fun s => s.service == n) = true
  · rw [if_pos ha]
    have hnames : (acc.map
          (fun s => if s.service == n then { s with vms := s.vms ++ [e.vm] } else s)).map
            (fun s => s.service)
        = acc.map (fun s => s.service) := by
      rw [List.map_map]
      apply List.map_congr_left
      intro s hs
      by_cases hsn : s.service = n <;> simp [hsn]
    rw [hnames]
    exact h
  · rw [if_neg ha]
    rw [List.map_append, List.nodup_append]
    refine ⟨h, by simp, ?_⟩
    intro x hx hx2
    simp only [List.map_cons, List.map_nil, List.mem_singleton] at hx2
    rw [List.mem_map] at hx
    obtain ⟨s, hs, hsn⟩ := hx
    rw [Bool.not_eq_true, List.any_eq_false] at ha
    apply ha s hs
    rw [hsn, hx2]
    exact beq_self_eq_true _

theorem foldl_upsert_names_nodup (e : RawVmEntry) (ns : List String) :
    ∀ acc : List Service, (acc.map (fun s => s.service)).Nodup →
      ((ns.foldl (upsertServiceVm e) acc).map (fun s => s.service)).Nodup := by
  induction ns with
  | nil => intro acc h; exact h
  | cons n ns ih =>
    intro acc h
    exact ih _ (upsertServiceVm_names_nodup e n acc h)

theorem foldl_process_names_nodup (entries : List RawVmEntry) :
    ∀ acc : List Service, (acc.map (fun s => s.service)).Nodup →
      ((entries.foldl processVmEntry acc).map (fun s => s.service)).Nodup := by
  induction entries with
  | nil => intro acc h; exact h
  | cons e es ih =>
    intro acc h
    exact ih _ (foldl_upsert_names_nodup e _ acc h)

/-- Claim C4: service names are unique within the merged snapshot, and two raw
entries yielding the same logical name produce a single Service whose member
list is the concatenation of both entries' members in fetch order (the first
entry's metadata serving as template). -/
theorem c4_merge_on_collision :
    (∀ entries : List RawVmEntry,
        ((mergeVmEntries entries).map (fun s => s.service)).Nodup)
    ∧ (∀ (e1 e2 : RawVmEntry) (nm : String),
        splitServiceNames e1.serviceTag = [nm] → splitServiceNames e2.serviceTag = [nm] →
        mergeVmEntries [e1, e2] =
          [{ service := nm, businessOwner := e1.proj, resourceGroup := e1.resourceGroup,
             location := e1.location, vms := [e1.vm, e2.vm] }]) := by
  constructor
  · intro entries
    exact foldl_process_names_nodup entries [] (by simp)
  · intro e1 e2 nm h1 h2
    simp [mergeVmEntries, processVmEntry, h1, h2, upsertServiceVm]

/-- First colliding entry for the concrete `gateway` scenario. -/
def demoCollide1 : RawVmEntry :=
  { serviceTag := "gateway", proj := "teamA", resourceGroup := "NINEBOT-DEV-01",
    location := "westeurope", vm := demoVmDev }

/-- Second colliding entry for the concrete `gateway` scenario, from another
machine. -/
def demoCollide2 : RawVmEntry :=
  { serviceTag := "gateway", proj := "teamB", resourceGroup := "NINEBOT-WILLAND-01",
    location := "germanywestcentral", vm := demoVmFra }

theorem c4_merge_on_collision_witness :
    splitServiceNames demoCollide1.serviceTag = ["gateway"]
    ∧ splitServiceNames demoCollide2.serviceTag = ["gateway"]
    ∧ mergeVmEntries [demoCollide1, demoCollide2] =
        [{ service := "gateway", businessOwner := demoCollide1.proj,
           resourceGroup := demoCollide1.resourceGroup,
           location := demoCollide1.location,
           vms := [demoCollide1.vm, demoCollide2.vm] }] :=
  ⟨by decide, by decide,
    c4_merge_on_collision.2 demoCollide1 demoCollide2 "gateway" (by decide) (by decide)⟩

/-! ### `prometheus_service.py`

`PrometheusService._query` (an HTTP round trip to Prometheus returning an
optional rounded numeric value) is the external collaborator; it is abstracted
as an oracle from the seven issued series queries to optional rationals.
`get_vm_metrics` is embedded over that oracle. -/

/-- The seven PromQL series issued by `get_vm_metrics`, in issue order. -/
inductive MetricSeries where
  | cpuPeak | cpuAvg | cpuLow
  | memPeak | memAvg | memLow
  | storageDataMount
deriving DecidableEq, Repr

/-- The per-address result dict of `get_vm_metrics`. -/
structure MetricsBundle where
  cpuPeak : Option ℚ
  cpuAvg : Option ℚ
  cpuLow : Option ℚ
  memPeak : Option ℚ
  memAvg : Option ℚ
  memLow : Option ℚ
  storageDataMount : Option ℚ
  lastUpdated : Option String
deriving DecidableEq, Repr

/-- The all-null `result` dict `get_vm_metrics` initializes with. -/
def emptyVmMetrics : MetricsBundle :=
  { cpuPeak := none, cpuAvg := none, cpuLow := none,
    memPeak := none, memAvg := none, memLow := none,
    storageDataMount := none, lastUpdated := none }

/-- `get_vm_metrics` from `prometheus_service.py`: `promConnected` is
`self.prom` being non-null, `q` the `_query` collaborator's answers for this
address, `now` the fetch timestamp. The timestamp is set only when
`cpu.peak`, `memory.peak` or `storage.dataMount` is non-null. -/
def get_vm_metrics (promConnected : Bool) (vm_ip : String)
    (q : MetricSeries → Option ℚ) (now : String) : MetricsBundle :=
  if !promConnected || vm_ip == "" then emptyVmMetrics
  else
    { cpuPeak := q .cpuPeak, cpuAvg := q .cpuAvg, cpuLow := q .cpuLow,
      memPeak := q .memPeak, memAvg := q .memAvg, memLow := q .memLow,
      storageDataMount := q .storageDataMount,
      lastUpdated :=
        if (q .cpuPeak).isSome || (q .memPeak).isSome || (q .storageDataMount).isSome
        then some now else none }

/-! ### `database.py`

TinyDB keeps one database file per environment, each with a `vms` table and a
`metrics` table; `upsert(record, cond)` replaces every document matching
`cond` with the record (all its fields being set), or appends the record when
none matches. The whole store is a total map from environment name to its two
tables. -/

/-- The single record shape of the `vms` table. -/
structure VmDataRecord where
  type : String
  services : List Service
  last_updated : String
deriving DecidableEq, Repr

/-- The single record shape of the `metrics` table. -/
structure MetricsRecord where
  type : String
  metrics_by_ip : List (String × MetricsBundle)
  last_updated : String
deriving DecidableEq, Repr

/-- The two tables of one environment's TinyDB database. -/
structure EnvDB where
  vms : List VmDataRecord
  metrics : List MetricsRecord
deriving Repr

/-- All per-environment databases. -/
def Store : Type := String → EnvDB

/-- A store of empty databases (state before any write). -/
def emptyStore : Store := fun _ => { vms := [], metrics := [] }

/-- The environment coercion performed by `get_db` / `get_db_path` /
`get_layout_path` in `database.py`. -/
def dbEnv (env : String) : String :=
  if VALID_ENVIRONMENTS.contains env then env else DEFAULT_ENVIRONMENT

/-- TinyDB `table.upsert(r, cond)`: update every matching document to `r`, or
append `r` when none matches. -/
def upsertBy {α : Type} (cond : α → Bool) (r : α) (tbl : List α) : List α :=
  if tbl.any cond then tbl.map (fun x => if cond x then r else x) else tbl ++ [r]

/-- `save_vm_data` from `database.py`. -/
def save_vm_data (services_data : List Service) (env : String) (now : String)
    (store : Store) : Store :=
  fun e =>
    if e = dbEnv env then
      { store e with
        vms := upsertBy (fun x => x.type == "vm_data")
          { type := "vm_data", services := services_data, last_updated := now }
          (store e).vms }
    else store e

/-- `read_vm_data` from `database.py` (`search` then `result[0]`). -/
def read_vm_data (env : String) (store : Store) : Option VmDataRecord :=
  ((store (dbEnv env)).vms.filter (fun x => x.type == "vm_data")).head?

/-- `save_metrics_data` from `database.py`. -/
def save_metrics_data (metrics_by_ip : List (String × MetricsBundle)) (env : String)
    (now : String) (store : Store) : Store :=
  fun e =>
    if e = dbEnv env then
      { store e with
        metrics := upsertBy (fun x => x.type == "metrics_data")
          { type := "metrics_data", metrics_by_ip := metrics_by_ip, last_updated := now }
          (store e).metrics }
    else store e

/-- `read_metrics_data` from `database.py`. -/
def read_metrics_data (env : String) (store : Store) : Option MetricsRecord :=
  ((store (dbEnv env)).metrics.filter (fun x => x.type == "metrics_data")).head?

/-- `get_all_vm_ips` from `database.py`: all truthy (non-empty) member
addresses of the stored snapshot, in order. -/
def get_all_vm_ips (env : String) (store : Store) : List String :=
  match read_vm_data env store with
  | none => []
  | some record =>
    record.services.flatMap (fun service =>
      service.vms.filterMap (fun vm => if vm.ip == "" then none else some vm.ip))

/-! ### Background refresh cycles (`app.py`) -/

/-- One iteration of the `background_vm_fetch` loop body: the outcome of the
(fallible, external) `fetch_all_vm_data` call is a parameter; on an exception
the `except` branch leaves every database untouched, otherwise the filtered
snapshot is saved for every environment. -/
def background_vm_fetch_cycle (fetched : Except String (List Service)) (now : String)
    (store : Store) : Store :=
  match fetched with
  | .error _ => store
  | .ok services =>
    VALID_ENVIRONMENTS.foldl
      (fun st env => save_vm_data (filter_services_by_environment services env) env now st)
      store

/-- One iteration of the `background_metrics_fetch` loop body:
`prometheus_service.get_bulk_metrics` is abstracted as `fetchBulk`. An
environment whose stored snapshot yields no addresses is skipped. -/
def background_metrics_fetch_cycle (fetchBulk : List String → List (String × MetricsBundle))
    (now : String) (store : Store) : Store :=
  VALID_ENVIRONMENTS.foldl
    (fun st env =>
      if (get_all_vm_ips env st).isEmpty then st
      else save_metrics_data (fetchBulk (get_all_vm_ips env st)) env now st)
    store

/-! ### HTTP layer (`app.py`)

Flask's `jsonify` responds with status 200; handlers are embedded as pure
functions of the request's environment segment and the current stores, the
layout files being a map from file path to optional stored document. -/

/-- An opaque stored layout document (the core never interprets it). -/
def LayoutDoc : Type := List (String × String)

instance : DecidableEq LayoutDoc := by
  unfold LayoutDoc
  infer_instance

/-- The layout files on disk: path to optional content. -/
def FileSys : Type := String → Option LayoutDoc

/-- `get_layout_path` from `database.py` (directory prefix elided). -/
def get_layout_path (env : String) : String :=
  "layout_" ++ dbEnv env ++ ".json"

/-- Response of the layout POST/DELETE handlers. -/
structure LayoutResp where
  success : Bool
  environment : String
  status : Nat
deriving DecidableEq, Repr

/-- Response of the `/api/<env>/vms` handler. -/
structure VmsResp where
  services : List Service
  environment : String
  error : Option String
  status : Nat
deriving DecidableEq, Repr

/-- `get_vms` handler from `app.py`. -/
def get_vms (env : String) (store : Store) : VmsResp :=
  match read_vm_data (validate_env env) store with
  | some record =>
    { services := record.services, environment := validate_env env,
      error := none, status := 200 }
  | none =>
    { services := [], environment := validate_env env,
      error := some "No data available yet", status := 200 }

/-- `get_metrics` handler from `app.py`. -/
def get_metrics (env : String) (store : Store) : List (String × MetricsBundle) × Nat :=
  match read_metrics_data (validate_env env) store with
  | some record => (record.metrics_by_ip, 200)
  | none => ([], 200)

/-- `get_layout` handler from `app.py`: stored document, else `{}`. -/
def get_layout (env : String) (fs : FileSys) : LayoutDoc × Nat :=
  match fs (get_layout_path (validate_env env)) with
  | some doc => (doc, 200)
  | none => (([] : List (String × String)), 200)

/-- `save_layout` handler from `app.py`: full-replace file write. -/
def save_layout (env : String) (doc : LayoutDoc) (fs : FileSys) : FileSys × LayoutResp :=
  (fun q => if q = get_layout_path (validate_env env) then some doc else fs q,
   { success := true, environment := validate_env env, status := 200 })

/-- `delete_layout` handler from `app.py`: remove the file when present,
report success either way. -/
def delete_layout (env : String) (fs : FileSys) : FileSys × LayoutResp :=
  (fun q => if q = get_layout_path (validate_env env) then none else fs q,
   { success := true, environment := validate_env env, status := 200 })

/-! ### Claim C5: metric bundle timestamping -/

/-- Oracle where only the cpu 30-day average query succeeds. -/
def c5Oracle : MetricSeries → Option ℚ :=
  fun s => match s with
  | .cpuAvg => some 5
  | _ => none

/-- Claim C5 counterexample: the claim says the timestamp is non-null iff at
least one of the seven queried series returned non-null; but when only the cpu
average succeeds (cpu peak, memory peak and the disk gauge all null), the code
leaves `lastUpdated` null, because `has_any_metric` consults only `cpu.peak`,
`memory.peak` and `storage.dataMount`. -/
theorem c5_counterexample :
    (get_vm_metrics true "10.0.0.5" c5Oracle "2026-01-01T00:00:00Z").cpuAvg = some 5
    ∧ (get_vm_metrics true "10.0.0.5" c5Oracle "2026-01-01T00:00:00Z").lastUpdated = none := by
  constructor <;> rfl

/-- Claim C5 (amended): for a connected service and non-empty address, the
bundle's timestamp is non-null iff at least one of cpu peak, memory peak or
the disk gauge is non-null (the cpu/memory avg and low series are not
consulted); in particular, when only the disk series succeeds the bundle has a
non-null disk value, null cpu/memory fields, and a non-null timestamp. -/
theorem c5_amended_timestamp (vm_ip : String) (q : MetricSeries → Option ℚ)
    (now : String) (hip : vm_ip ≠ "") :
    ((get_vm_metrics true vm_ip q now).lastUpdated.isSome =
      ((q .cpuPeak).isSome || (q .memPeak).isSome || (q .storageDataMount).isSome))
    ∧ ((q .cpuPeak = none ∧ q .cpuAvg = none ∧ q .cpuLow = none ∧ q .memPeak = none
        ∧ q .memAvg = none ∧ q .memLow = none ∧ (q .storageDataMount).isSome = true) →
        (get_vm_metrics true vm_ip q now).storageDataMount = q .storageDataMount
        ∧ (get_vm_metrics true vm_ip q now).cpuPeak = none
        ∧ (get_vm_metrics true vm_ip q now).cpuAvg = none
        ∧ (get_vm_metrics true vm_ip q now).cpuLow = none
        ∧ (get_vm_metrics true vm_ip q now).memPeak = none
        ∧ (get_vm_metrics true vm_ip q now).memAvg = none
        ∧ (get_vm_metrics true vm_ip q now).memLow = none
        ∧ (get_vm_metrics true vm_ip q now).lastUpdated = some now) := by
  have hbeq : (vm_ip == "") = false := beq_eq_false_iff_ne.mpr hip
  constructor
  · unfold get_vm_metrics
    simp only [hbeq, Bool.not_true, Bool.false_or, Bool.or_false, if_false]
    by_cases hc :
        ((q .cpuPeak).isSome || (q .memPeak).isSome || (q .storageDataMount).isSome) = true <;>
      simp [hc]
  · intro hall
    obtain ⟨h1, h2, h3, h4, h5, h6, h7⟩ := hall
    unfold get_vm_metrics
    simp [hbeq, h1, h2, h3, h4, h5, h6, h7]

/-- Oracle where only the disk gauge query succeeds. -/
def c5DiskOracle : MetricSeries → Option ℚ :=
  fun s => match s with
  | .storageDataMount => some 42
  | _ => none

theorem c5_amended_timestamp_witness :
    ("10.0.0.5" : String) ≠ ""
    ∧ ((get_vm_metrics true "10.0.0.5" c5DiskOracle "T").lastUpdated.isSome =
        ((c5DiskOracle .cpuPeak).isSome || (c5DiskOracle .memPeak).isSome
          || (c5DiskOracle .storageDataMount).isSome)) :=
  ⟨by decide, (c5_amended_timestamp "10.0.0.5" c5DiskOracle "T" (by decide)).1⟩

/-! ### Claim C6: total fetch failure leaves every cached snapshot untouched -/

/-- Claim C6: when `fetch_all_vm_data` raises, the cycle's `except` branch
performs no cache write: the whole store, and in particular every
environment's cached snapshot, is exactly what it was before the cycle. -/
theorem c6_fetch_failure_no_write (err now : String) (store : Store) :
    background_vm_fetch_cycle (.error err) now store = store
    ∧ ∀ env, read_vm_data env (background_vm_fetch_cycle (.error err) now store)
        = read_vm_data env store := by
  exact ⟨rfl, fun env => rfl⟩

/-! ### Claim C7: cache replace semantics -/

theorem head_filter_map_upsert {α : Type} (cond : α → Bool) (r : α) (hr : cond r = true) :
    ∀ tbl : List α, tbl.any cond = true →
      (((tbl.map (fun x => if cond x then r else x))).filter cond).head? = some r := by
  intro tbl
  induction tbl with
  | nil => intro h; simp at h
  | cons x xs ih =>
    intro h
    by_cases hx : cond x = true
    · simp [List.filter_cons, hx, hr]
    · rw [List.any_cons] at h
      simp only [hx, Bool.false_or] at h
      simp only [List.map_cons, List.filter_cons, hx, if_false, Bool.false_eq_true]
      exact ih h

theorem filter_upsertBy_head {α : Type} (cond : α → Bool) (r : α) (hr : cond r = true)
    (tbl : List α) : ((upsertBy cond r tbl).filter cond).head? = some r := by
  unfold upsertBy
  by_cases ha : tbl.any cond = true
  · rw [if_pos ha]
    exact head_filter_map_upsert cond r hr tbl ha
  · rw [if_neg ha]
    rw [Bool.not_eq_true, List.any_eq_false] at ha
    rw [List.filter_append]
    rw [List.filter_eq_nil_iff.mpr ha]
    simp [hr]

theorem countP_map_upsert {α : Type} (cond : α → Bool) (r : α) (hr : cond r = true) :
    ∀ tbl : List α,
      (tbl.map (fun x => if cond x then r else x)).countP cond = tbl.countP cond := by
  intro tbl
  induction tbl with
  | nil => rfl
  | cons x xs ih =>
    by_cases hx : cond x = true <;> simp [List.countP_cons, hx, hr, ih]

theorem countP_upsertBy_le_one {α : Type} (cond : α → Bool) (r : α) (hr : cond r = true)
    (tbl : List α) (h : tbl.countP cond ≤ 1) : (upsertBy cond r tbl).countP cond ≤ 1 := by
  unfold upsertBy
  by_cases ha : tbl.any cond = true
  · rw [if_pos ha, countP_map_upsert cond r hr]
    exact h
  · rw [if_neg ha]
    rw [Bool.not_eq_true, List.any_eq_false] at ha
    rw [List.countP_append, List.countP_eq_zero.mpr ha]
    simp [List.countP_cons, hr]

/-- The store invariant that each environment's `vms` table holds at most one
`vm_data` record. -/
def atMostOneVmRecord (store : Store) : Prop :=
  ∀ e, ((store e).vms.countP (fun x => x.type == "vm_data")) ≤ 1

/-- Claim C7: `put` then `put` then `get` on the same environment returns
exactly the second value — the stored record is a full replacement carrying
the second snapshot and timestamp, never a merge — and `put` preserves the
at-most-one-record-per-(environment, kind) invariant. -/
theorem c7_cache_replace (env : String) (A B : List Service) (tA tB : String)
    (store : Store) :
    read_vm_data env (save_vm_data B env tB (save_vm_data A env tA store))
      = some { type := "vm_data", services := B, last_updated := tB }
    ∧ (atMostOneVmRecord store →
        atMostOneVmRecord (save_vm_data B env tB (save_vm_data A env tA store))) := by
  constructor
  · unfold read_vm_data save_vm_data
    simp only [if_pos rfl]
    exact filter_upsertBy_head _ _ rfl _
  · intro h e
    by_cases he : e = dbEnv env
    · subst he
      unfold save_vm_data
      simp only [if_pos rfl]
      exact countP_upsertBy_le_one _ _ rfl _
        (countP_upsertBy_le_one _ _ rfl _ (h _))
    · unfold save_vm_data
      simp only [if_neg he]
      exact h e

theorem c7_cache_replace_witness :
    atMostOneVmRecord emptyStore
    ∧ read_vm_data "dev"
        (save_vm_data [demoService] "dev" "t2" (save_vm_data [] "dev" "t1" emptyStore))
        = some { type := "vm_data", services := [demoService], last_updated := "t2" }
    ∧ atMostOneVmRecord
        (save_vm_data [demoService] "dev" "t2" (save_vm_data [] "dev" "t1" emptyStore)) := by
  have hinv : atMostOneVmRecord emptyStore := by
    intro e
    simp [emptyStore]
  exact ⟨hinv, (c7_cache_replace "dev" [] [demoService] "t1" "t2" emptyStore).1,
    (c7_cache_replace "dev" [] [demoService] "t1" "t2" emptyStore).2 hinv⟩

/-! ### Claim C8: layout delete -/

/-- Claim C8: deleting a layout removes the stored record entirely — a
following `get` answers with the empty document, not the old content — the
delete response reports success, and a second delete on the already-absent
layout still reports success and changes nothing. -/
theorem c8_layout_delete_idempotent (env : String) (fs : FileSys) :
    get_layout env (delete_layout env fs).1 = (([] : List (String × String)), 200)
    ∧ (delete_layout env fs).1 (get_layout_path (validate_env env)) = none
    ∧ (delete_layout env fs).2
        = { success := true, environment := validate_env env, status := 200 }
    ∧ (delete_layout env (delete_layout env fs).1).2
        = { success := true, environment := validate_env env, status := 200 }
    ∧ (delete_layout env (delete_layout env fs).1).1 = (delete_layout env fs).1 := by
  refine ⟨?_, ?_, rfl, rfl, ?_⟩
  · unfold get_layout delete_layout
    simp
  · unfold delete_layout
    simp
  · unfold delete_layout
    funext qq
    by_cases hq : qq = get_layout_path (validate_env env) <;> simp [hq]

/-! ### Claim C9: invalid environment tags are silently defaulted -/

/-- Claim C9: an environment path segment outside the closed set is silently
replaced by the default environment `dev` in every environment-aware handler;
the request is served exactly as for the default environment and always with
status 200, never an error status. -/
theorem c9_invalid_env_defaulted (env : String) (store : Store) (fs : FileSys)
    (doc : LayoutDoc) (h : is_valid_environment env = false) :
    validate_env env = DEFAULT_ENVIRONMENT
    ∧ get_vms env store = get_vms DEFAULT_ENVIRONMENT store
    ∧ (get_vms env store).status = 200
    ∧ get_metrics env store = get_metrics DEFAULT_ENVIRONMENT store
    ∧ (get_metrics env store).2 = 200
    ∧ get_layout env fs = get_layout DEFAULT_ENVIRONMENT fs
    ∧ (get_layout env fs).2 = 200
    ∧ save_layout env doc fs = save_layout DEFAULT_ENVIRONMENT doc fs
    ∧ (save_layout env doc fs).2.status = 200
    ∧ delete_layout env fs = delete_layout DEFAULT_ENVIRONMENT fs
    ∧ (delete_layout env fs).2.status = 200 := by
  have hv : validate_env env = DEFAULT_ENVIRONMENT := by
    unfold validate_env
    rw [h]
    rfl
  have hd : validate_env DEFAULT_ENVIRONMENT = DEFAULT_ENVIRONMENT := by decide
  refine ⟨hv, ?_, ?_, ?_, ?_, ?_, ?_, ?_, ?_, ?_, ?_⟩
  · simp [get_vms, hv, hd]
  · cases hm : read_vm_data (validate_env env) store <;> simp [get_vms, hm]
  · simp [get_metrics, hv, hd]
  · cases hm : read_metrics_data (validate_env env) store <;> simp [get_metrics, hm]
  · simp [get_layout, hv, hd]
  · cases hm : fs (get_layout_path (validate_env env)) <;> simp [get_layout, hm]
  · simp [save_layout, hv, hd]
  · rfl
  · simp [delete_layout, hv, hd]
  · rfl

theorem c9_invalid_env_defaulted_witness :
    is_valid_environment "staging" = false
    ∧ validate_env "staging" = DEFAULT_ENVIRONMENT
    ∧ get_vms "staging" emptyStore = get_vms DEFAULT_ENVIRONMENT emptyStore :=
  ⟨by decide,
    (c9_invalid_env_defaulted "staging" emptyStore (fun _ => none) [] (by decide)).1,
    (c9_invalid_env_defaulted "staging" emptyStore (fun _ => none) [] (by decide)).2.1⟩

/-! ### Claim C10: metrics cycle skips environments with no addresses -/

/-- Claim C10: in a metrics refresh cycle, an environment whose cached
snapshot yields an empty address list receives no metrics write: its whole
per-environment database — in particular its cached metrics record with its
embedded timestamp — is unchanged by the cycle. -/
theorem c10_metrics_skip_empty (fetchBulk : List String → List (String × MetricsBundle))
    (now : String) (store : Store) (env : String)
    (henv : env ∈ VALID_ENVIRONMENTS) (hips : get_all_vm_ips env store = []) :
    (background_metrics_fetch_cycle fetchBulk now store) env = store env
    ∧ read_metrics_data env (background_metrics_fetch_cycle fetchBulk now store)
        = read_metrics_data env store := by
  have hdb : dbEnv env = env := by
    unfold dbEnv
    rw [if_pos (by simpa [List.elem_iff] using henv)]
  have key : ∀ l : List String, (∀ x ∈ l, x ∈ VALID_ENVIRONMENTS) →
      ∀ st : Store, st env = store env →
      (l.foldl
        (fun st e =>
          if (get_all_vm_ips e st).isEmpty then st
          else save_metrics_data (fetchBulk (get_all_vm_ips e st)) e now st)
        st) env = store env := by
    intro l
    induction l with
    | nil => intro _ st hst; exact hst
    | cons x xs ih =>
      intro hl st hst
      rw [List.foldl_cons]
      apply ih (fun y hy => hl y (List.mem_cons_of_mem _ hy))
      by_cases hx : x = env
      · subst hx
        have hsame : get_all_vm_ips x st = get_all_vm_ips x store := by
          unfold get_all_vm_ips read_vm_data
          rw [hdb, hst]
        rw [hsame, hips]
        simpa using hst
      · have hxd : dbEnv x ≠ env := by
          have hxv : x ∈ VALID_ENVIRONMENTS := hl x (List.mem_cons_self _ _)
          have : dbEnv x = x := by
            unfold dbEnv
            rw [if_pos (by simpa [List.elem_iff] using hxv)]
          rw [this]
          exact hx
        by_cases hi : (get_all_vm_ips x st).isEmpty = true
        · simpa [hi] using hst
        · simp only [hi, if_false, Bool.false_eq_true]
          unfold save_metrics_data
          rw [if_neg (fun hh => hxd hh.symm)]
          exact hst
  have hmain : (background_metrics_fetch_cycle fetchBulk now store) env = store env :=
    key VALID_ENVIRONMENTS (fun x hx => hx) store rfl
  refine ⟨hmain, ?_⟩
  unfold read_metrics_data
  rw [hdb, hmain]

theorem c10_metrics_skip_empty_witness :
    ("dev" ∈ VALID_ENVIRONMENTS)
    ∧ get_all_vm_ips "dev" emptyStore = []
    ∧ read_metrics_data "dev" (background_metrics_fetch_cycle (fun _ => []) "T" emptyStore)
        = read_metrics_data "dev" emptyStore :=
  ⟨by decide, by rfl,
    (c10_metrics_skip_empty (fun _ => []) "T" emptyStore "dev" (by decide) (by rfl)).2⟩

end Overvability
